import Mathlib

/-!
Shallow embedding of the `Paginatable` pagination store
(source file: `src/unnamed/part_000`, class `Paginatable<T extends { id: number }>`).

Modelling choices, all taken from the source:

* Items `T extends { id: number }` are modelled by a record with an integer
  `id` and an opaque integer payload; the store never inspects anything but
  `id`.
* The JS `Map` objects (`_items`, `loading`), the `Set` object (`seen`) are
  mutable objects shared by reference across clones, so they live in an
  explicit heap indexed by allocation number.  A heap region per object type
  keeps lookups typed.  `Map` iteration order (insertion order, `set` on an
  existing key keeps its position, re-insertion after `delete` appends) is
  modelled by association lists.
* The cached array `_itemsCache : T[] | null` is created by
  `Array.from(map.values())` and never mutated afterwards, so it is modelled
  as an immutable list tagged with its allocation number; reference equality
  of two reads is equality of the tags.
* `dispatch` (a React state setter) is modelled by an optional callback
  identity; invoking it appends the passed snapshot to an observable log
  (`World.dispatched`).  Invoking it while it is still `undefined` is the JS
  `TypeError`, modelled by the `threwNoDispatch` outcome.
* `onPaginate` is fixed at construction and only ever copied unchanged by
  `clone`, so it is threaded as an explicit parameter of `paginate`
  (`Int → Except Unit (Option (List Item) × Int)`, where `.error` is a
  rejected promise and `data : T[] | null` is an `Option`); every invocation
  is logged in `World.fetchCalls`.
* `console.warn` is modelled by a counter.
* Each operation returns the updated world, the updated store record and an
  outcome: normal return, a propagated fetch failure, or the `TypeError`
  from calling the missing dispatch.  Mutations performed before a throw are
  kept, as in JS.
-/

/-- An item: `T extends { id: number }` with an opaque payload. -/
structure Item where
  id : Int
  payload : Int
deriving Repr, DecidableEq

/-- First binding of key `k` in an association list (JS `Map.get`). -/
def assocGet {κ α : Type} [DecidableEq κ] (l : List (κ × α)) (k : κ) : Option α :=
  match l with
  | [] => none
  | (k', v) :: t => if k' = k then some v else assocGet t k

/-- JS `Map.set`: replace the first binding of `k` in place (keeping its
position), or append a fresh binding at the end. -/
def assocSet {κ α : Type} [DecidableEq κ] (l : List (κ × α)) (k : κ) (v : α) :
    List (κ × α) :=
  match l with
  | [] => [(k, v)]
  | (k', v') :: t => if k' = k then (k, v) :: t else (k', v') :: assocSet t k v

/-- JS `Map.has`. -/
def assocHas {κ α : Type} [DecidableEq κ] (l : List (κ × α)) (k : κ) : Bool :=
  (assocGet l k).isSome

/-- JS `Map.delete`, the resulting list (the `delete` return value is
`assocHas l k`). -/
def assocDel {κ α : Type} [DecidableEq κ] (l : List (κ × α)) (k : κ) :
    List (κ × α) :=
  l.filter (fun p => decide (p.1 ≠ k))

/-- JS `Map.values()` in insertion order. -/
def mapValues {κ α : Type} (l : List (κ × α)) : List α :=
  l.map Prod.snd

/-- JS `Set.add`: append if absent. -/
def jsSetAdd (s : List Int) (x : Int) : List Int :=
  if s.contains x then s else s ++ [x]

/-- The mutable-object heap: one region per JS object type used by the
store, plus the next fresh allocation number. -/
structure Heap where
  itemMaps : List (Nat × List (Int × Item))
  intSets : List (Nat × List Int)
  boolMaps : List (Nat × List (Int × Bool))
  next : Nat
deriving Repr, DecidableEq

def emptyHeap : Heap :=
  { itemMaps := [], intSets := [], boolMaps := [], next := 0 }

def Heap.itemMapAt (h : Heap) (r : Nat) : List (Int × Item) :=
  (assocGet h.itemMaps r).getD []

def Heap.intSetAt (h : Heap) (r : Nat) : List Int :=
  (assocGet h.intSets r).getD []

def Heap.boolMapAt (h : Heap) (r : Nat) : List (Int × Bool) :=
  (assocGet h.boolMaps r).getD []

def Heap.writeItemMap (h : Heap) (r : Nat) (m : List (Int × Item)) : Heap :=
  { h with itemMaps := assocSet h.itemMaps r m }

def Heap.writeIntSet (h : Heap) (r : Nat) (s : List Int) : Heap :=
  { h with intSets := assocSet h.intSets r s }

def Heap.writeBoolMap (h : Heap) (r : Nat) (m : List (Int × Bool)) : Heap :=
  { h with boolMaps := assocSet h.boolMaps r m }

def Heap.allocItemMap (h : Heap) (m : List (Int × Item)) : Nat × Heap :=
  (h.next, { h.writeItemMap h.next m with next := h.next + 1 })

def Heap.allocIntSet (h : Heap) (s : List Int) : Nat × Heap :=
  (h.next, { h.writeIntSet h.next s with next := h.next + 1 })

def Heap.allocBoolMap (h : Heap) (m : List (Int × Bool)) : Nat × Heap :=
  (h.next, { h.writeBoolMap h.next m with next := h.next + 1 })

/-- The `Paginatable` instance: its scalar fields, references into the heap
for its mutable collections, the tagged immutable `_itemsCache` array, and
the optional dispatch callback identity. -/
structure Paginatable where
  total : Int
  loadingRef : Nat
  itemsRef : Nat
  itemsCache : Option (Nat × List Item)
  seenRef : Nat
  dispatch : Option Nat
deriving Repr, DecidableEq

/-- Observable world: the heap, the log of snapshots passed to the dispatch
callback, the log of pages the injected `onPaginate` was invoked with, and
the number of `console.warn` calls. -/
structure World where
  heap : Heap
  dispatched : List Paginatable
  fetchCalls : List Int
  warnings : Nat
deriving Repr, DecidableEq

def emptyWorld : World :=
  { heap := emptyHeap, dispatched := [], fetchCalls := [], warnings := 0 }

/-- Outcome of a store operation: normal return, a propagated rejection of
the injected fetch, or the `TypeError` from invoking the still-undefined
`dispatch`. -/
inductive OpResult where
  | ok
  | threwFetch
  | threwNoDispatch
deriving Repr, DecidableEq

/-- Constructor (source lines 39-47): allocate `_items`, `loading`, `seen`
empty; `total = 0`; `_itemsCache = null`; no dispatch registered yet. -/
def mkPaginatable (h : Heap) : Heap × Paginatable :=
  let (itemsRef, h) := h.allocItemMap []
  let (loadingRef, h) := h.allocBoolMap []
  let (seenRef, h) := h.allocIntSet []
  (h, { total := 0, loadingRef := loadingRef, itemsRef := itemsRef,
        itemsCache := none, seenRef := seenRef, dispatch := none })

/-- `setDispatch` (source lines 49-52): store the callback, return `this`. -/
def setDispatch (s : Paginatable) (d : Nat) : Paginatable :=
  { s with dispatch := some d }

/-- The `items` getter (source lines 61-66): return the cached array if
present; otherwise build `Array.from(this._items.values())`, cache it and
return it.  The returned pair is (allocation tag, contents). -/
def itemsRead (w : World) (s : Paginatable) :
    World × Paginatable × (Nat × List Item) :=
  match s.itemsCache with
  | some c => (w, s, c)
  | none =>
    let arr := mapValues (w.heap.itemMapAt s.itemsRef)
    let c := (w.heap.next, arr)
    ({ w with heap := { w.heap with next := w.heap.next + 1 } },
     { s with itemsCache := some c }, c)

/-- `has` (source lines 161-163): `this._items.has(itemId)`. -/
def hasItem (w : World) (s : Paginatable) (itemId : Int) : Bool :=
  assocHas (w.heap.itemMapAt s.itemsRef) itemId

/-- `get` (source lines 172-177): look the item up; warn when absent. -/
def getItem (w : World) (s : Paginatable) (itemId : Int) :
    World × Option Item :=
  match assocGet (w.heap.itemMapAt s.itemsRef) itemId with
  | none => ({ w with warnings := w.warnings + 1 }, none)
  | some it => (w, some it)

/-- `clone` (source lines 186-196): `new Paginatable(this.onPaginate)`
(three fresh allocations), then share `_items`, `total`, `dispatch` and
`_itemsCache`, and copy `seen` (`new Set(this.seen)`) and `loading`
(`new Map(this.loading)`) into fresh objects. -/
def clone (w : World) (s : Paginatable) : World × Paginatable :=
  let (h, fresh) := mkPaginatable w.heap
  let (seenRef2, h) := h.allocIntSet (h.intSetAt s.seenRef)
  let (loadingRef2, h) := h.allocBoolMap (h.boolMapAt s.loadingRef)
  ({ w with heap := h },
   { fresh with itemsRef := s.itemsRef, total := s.total,
                seenRef := seenRef2, dispatch := s.dispatch,
                loadingRef := loadingRef2, itemsCache := s.itemsCache })

/-- The `this.dispatch(this.clone())` pattern shared by the notifying
mutations.  The clone (the call argument) is evaluated first; if `dispatch`
is still `undefined`, calling it is a `TypeError`. -/
def notify (w : World) (s : Paginatable) : World × OpResult :=
  let (w, snap) := clone w s
  match s.dispatch with
  | none => (w, OpResult.threwNoDispatch)
  | some _ => ({ w with dispatched := w.dispatched ++ [snap] }, OpResult.ok)

/-- `add` (source lines 112-118): skip entirely when the id is present;
otherwise null the cache, insert, and dispatch a clone. -/
def add (w : World) (s : Paginatable) (item : Item) :
    World × Paginatable × OpResult :=
  if hasItem w s item.id then (w, s, OpResult.ok)
  else
    let s := { s with itemsCache := none }
    let w := { w with heap :=
      (w.heap.writeItemMap s.itemsRef
        (assocSet (w.heap.itemMapAt s.itemsRef) item.id item)) }
    let (w, res) := notify w s
    (w, s, res)

/-- `remove` (source lines 126-135): `delete` first; when nothing was
deleted, warn and return; otherwise null the cache and dispatch a clone. -/
def remove (w : World) (s : Paginatable) (itemId : Int) :
    World × Paginatable × OpResult :=
  let m := w.heap.itemMapAt s.itemsRef
  let deleted := assocHas m itemId
  let w := { w with heap := w.heap.writeItemMap s.itemsRef (assocDel m itemId) }
  if !deleted then
    ({ w with warnings := w.warnings + 1 }, s, OpResult.ok)
  else
    let s := { s with itemsCache := none }
    let (w, res) := notify w s
    (w, s, res)

/-- `update` (source lines 143-152): when the id is absent, warn and return;
otherwise overwrite in place, null the cache, dispatch a clone. -/
def update (w : World) (s : Paginatable) (item : Item) :
    World × Paginatable × OpResult :=
  if !(hasItem w s item.id) then
    ({ w with warnings := w.warnings + 1 }, s, OpResult.ok)
  else
    let w := { w with heap :=
      (w.heap.writeItemMap s.itemsRef
        (assocSet (w.heap.itemMapAt s.itemsRef) item.id item)) }
    let s := { s with itemsCache := none }
    let (w, res) := notify w s
    (w, s, res)

/-- `reset` (source lines 97-104): clear `_items`, null the cache, zero
`total`, clear `seen` and `loading`, return `this`.  No dispatch. -/
def reset (w : World) (s : Paginatable) : World × Paginatable :=
  let w := { w with heap := w.heap.writeItemMap s.itemsRef [] }
  let s := { s with itemsCache := none, total := 0 }
  let w := { w with heap := w.heap.writeIntSet s.seenRef [] }
  let w := { w with heap := w.heap.writeBoolMap s.loadingRef [] }
  (w, s)

/-- One step of the merge loop of `paginate` (source lines 85-87):
`this._items.set(item.id, item)`. -/
def mergeStep (w : World) (r : Nat) (item : Item) : World :=
  { w with heap :=
      (w.heap.writeItemMap r (assocSet (w.heap.itemMapAt r) item.id item)) }

/-- The merge loop of `paginate`: `for (const item of data || []) ...`. -/
def mergeAll (w : World) (r : Nat) (data : List Item) : World :=
  data.foldl (fun w item => mergeStep w r item) w

/-- `paginate` (source lines 75-90): skip seen pages; otherwise mark seen,
set `loading[page] = true`, invoke the fetch (awaited; a rejection
propagates from here, leaving `loading[page]` as it is), then clear the
loading flag, take the reported total, merge the returned items, and
dispatch a clone.  Note: the cache `_itemsCache` is NOT invalidated. -/
def paginate (fetch : Int → Except Unit (Option (List Item) × Int))
    (w : World) (s : Paginatable) (page : Int) :
    World × Paginatable × OpResult :=
  if (w.heap.intSetAt s.seenRef).contains page then (w, s, OpResult.ok)
  else
    let w := { w with heap :=
      (w.heap.writeIntSet s.seenRef (jsSetAdd (w.heap.intSetAt s.seenRef) page)) }
    let w := { w with heap :=
      (w.heap.writeBoolMap s.loadingRef
        (assocSet (w.heap.boolMapAt s.loadingRef) page true)) }
    let w := { w with fetchCalls := w.fetchCalls ++ [page] }
    match fetch page with
    | Except.error _ => (w, s, OpResult.threwFetch)
    | Except.ok (data, tot) =>
      let w := { w with heap :=
        (w.heap.writeBoolMap s.loadingRef
          (assocSet (w.heap.boolMapAt s.loadingRef) page false)) }
      let s := { s with total := tot }
      let w := mergeAll w s.itemsRef (data.getD [])
      let (w, res) := notify w s
      (w, s, res)

/-- Well-formedness of a store against a world: its three heap references
were actually allocated (are below the heap allocation counter). -/
def WFRefs (w : World) (s : Paginatable) : Prop :=
  s.itemsRef < w.heap.next ∧ s.seenRef < w.heap.next ∧ s.loadingRef < w.heap.next

instance (w : World) (s : Paginatable) : Decidable (WFRefs w s) := by
  unfold WFRefs; infer_instance

/-- Keys of the item map are pairwise distinct. -/
def keysNodup {κ α : Type} (l : List (κ × α)) : Prop :=
  (l.map Prod.fst).Nodup

instance {κ α : Type} [DecidableEq κ] (l : List (κ × α)) :
    Decidable (keysNodup l) := by
  unfold keysNodup
  infer_instance

/-! Association list lemmas. -/

theorem assocGet_set_self {κ α : Type} [DecidableEq κ] (l : List (κ × α))
    (k : κ) (v : α) : assocGet (assocSet l k v) k = some v := by
  induction l with
  | nil => simp [assocSet, assocGet]
  | cons p t ih =>
    obtain ⟨a, b⟩ := p
    by_cases h : a = k
    · simp [assocSet, assocGet, h]
    · simp [assocSet, assocGet, h, ih]

theorem assocGet_set_ne {κ α : Type} [DecidableEq κ] (l : List (κ × α))
    (k k' : κ) (v : α) (h : k' ≠ k) :
    assocGet (assocSet l k v) k' = assocGet l k' := by
  induction l with
  | nil => simp [assocSet, assocGet, Ne.symm h]
  | cons p t ih =>
    obtain ⟨a, b⟩ := p
    by_cases hak : a = k
    · subst hak
      simp [assocSet, assocGet, Ne.symm h]
    · simp [assocSet, assocGet, hak, ih]

theorem assocSet_get_eq {κ α : Type} [DecidableEq κ] (l : List (κ × α))
    (k : κ) (v : α) (h : assocGet l k = some v) : assocSet l k v = l := by
  induction l with
  | nil => simp [assocGet] at h
  | cons p t ih =>
    obtain ⟨a, b⟩ := p
    by_cases hak : a = k
    · subst hak
      simp [assocGet] at h
      simp [assocSet, h]
    · simp [assocGet, hak] at h
      simp [assocSet, hak, ih h]

theorem assocGet_none_not_key {κ α : Type} [DecidableEq κ] (l : List (κ × α))
    (k : κ) (h : assocGet l k = none) : ∀ p ∈ l, p.1 ≠ k := by
  induction l with
  | nil => simp
  | cons p t ih =>
    obtain ⟨a, b⟩ := p
    by_cases hak : a = k
    · subst hak
      simp [assocGet] at h
    · simp [assocGet, hak] at h
      intro q hq
      rcases List.mem_cons.mp hq with rfl | hq2
      · simpa using hak
      · exact ih h q hq2

theorem assocDel_not_has {κ α : Type} [DecidableEq κ] (l : List (κ × α))
    (k : κ) (h : assocHas l k = false) : assocDel l k = l := by
  have hnone : assocGet l k = none := by
    cases hg : assocGet l k with
    | none => rfl
    | some v => simp [assocHas, hg] at h
  unfold assocDel
  rw [List.filter_eq_self]
  intro p hp
  simpa using assocGet_none_not_key l k hnone p hp

theorem not_mem_keys_of_get_none {κ α : Type} [DecidableEq κ]
    (l : List (κ × α)) (k : κ) (h : assocGet l k = none) :
    k ∉ l.map Prod.fst := by
  intro hk
  rcases List.mem_map.mp hk with ⟨p, hp, hpk⟩
  exact assocGet_none_not_key l k h p hp hpk

theorem keys_assocSet {κ α : Type} [DecidableEq κ] (l : List (κ × α))
    (k : κ) (v : α) :
    (assocSet l k v).map Prod.fst =
      if assocHas l k then l.map Prod.fst else l.map Prod.fst ++ [k] := by
  induction l with
  | nil => simp [assocSet, assocHas, assocGet]
  | cons p t ih =>
    obtain ⟨a, b⟩ := p
    by_cases hak : a = k
    · subst hak
      simp [assocSet, assocHas, assocGet]
    · cases hg : assocGet t k with
      | none =>
        have hh : assocHas ((a, b) :: t) k = false := by
          simp [assocHas, assocGet, hak, hg]
        have hh2 : assocHas t k = false := by simp [assocHas, hg]
        simp [assocSet, hak, hh, ih, hh2]
      | some u =>
        have hh : assocHas ((a, b) :: t) k = true := by
          simp [assocHas, assocGet, hak, hg]
        have hh2 : assocHas t k = true := by simp [assocHas, hg]
        simp [assocSet, hak, hh, ih, hh2]

theorem keysNodup_assocSet {κ α : Type} [DecidableEq κ] (l : List (κ × α))
    (k : κ) (v : α) (h : keysNodup l) : keysNodup (assocSet l k v) := by
  unfold keysNodup at h ⊢
  rw [keys_assocSet]
  cases hg : assocGet l k with
  | none =>
    have hh : assocHas l k = false := by simp [assocHas, hg]
    rw [hh]
    simp only [Bool.false_eq_true, if_false, List.nodup_append]
    refine ⟨h, List.nodup_singleton k, ?_⟩
    intro x hx hx2
    rcases List.mem_singleton.mp hx2 with rfl
    exact not_mem_keys_of_get_none l x hg hx
  | some u =>
    have hh : assocHas l k = true := by simp [assocHas, hg]
    rw [hh]
    simpa using h

theorem assocGet_mem {κ α : Type} [DecidableEq κ] (l : List (κ × α))
    (k : κ) (v : α) (h : assocGet l k = some v) : (k, v) ∈ l := by
  induction l with
  | nil => simp [assocGet] at h
  | cons p t ih =>
    obtain ⟨a, b⟩ := p
    by_cases hak : a = k
    · subst hak
      simp [assocGet] at h
      simp [h]
    · simp [assocGet, hak] at h
      exact List.mem_cons_of_mem _ (ih h)

theorem findIdx_key_lt {κ α : Type} [DecidableEq κ] (l : List (κ × α))
    (k : κ) (h : assocHas l k = true) :
    l.findIdx (fun p => decide (p.1 = k)) < l.length := by
  induction l with
  | nil => simp [assocHas, assocGet] at h
  | cons p t ih =>
    obtain ⟨a, b⟩ := p
    by_cases hak : a = k
    · simp [List.findIdx_cons, hak]
    · have ht : assocHas t k = true := by
        simpa [assocHas, assocGet, hak] using h
      have hlt := ih ht
      simp only [List.findIdx_cons]
      simp only [hak, decide_eq_true_eq, if_false, decide_eq_false_iff_not]
      simpa [hak] using Nat.succ_lt_succ hlt

theorem mapValues_assocSet {κ α : Type} [DecidableEq κ] (l : List (κ × α))
    (k : κ) (v : α) (h : assocHas l k = true) :
    mapValues (assocSet l k v) =
      (mapValues l).set (l.findIdx (fun p => decide (p.1 = k))) v := by
  induction l with
  | nil => simp [assocHas, assocGet] at h
  | cons p t ih =>
    obtain ⟨a, b⟩ := p
    by_cases hak : a = k
    · simp [assocSet, hak, mapValues, List.findIdx_cons]
    · have ht : assocHas t k = true := by
        simpa [assocHas, assocGet, hak] using h
      simp [assocSet, hak, mapValues, List.findIdx_cons]
      simpa [mapValues] using ih ht

/-! Heap region lemmas. -/

@[simp]
theorem itemMapAt_writeItemMap_self (h : Heap) (r : Nat) (m : List (Int × Item)) :
    (h.writeItemMap r m).itemMapAt r = m := by
  simp [Heap.itemMapAt, Heap.writeItemMap, assocGet_set_self]

theorem itemMapAt_writeItemMap_ne (h : Heap) (r r' : Nat) (m : List (Int × Item))
    (hne : r' ≠ r) : (h.writeItemMap r m).itemMapAt r' = h.itemMapAt r' := by
  simp [Heap.itemMapAt, Heap.writeItemMap, assocGet_set_ne _ _ _ _ hne]

@[simp]
theorem intSetAt_writeIntSet_self (h : Heap) (r : Nat) (s : List Int) :
    (h.writeIntSet r s).intSetAt r = s := by
  simp [Heap.intSetAt, Heap.writeIntSet, assocGet_set_self]

theorem intSetAt_writeIntSet_ne (h : Heap) (r r' : Nat) (s : List Int)
    (hne : r' ≠ r) : (h.writeIntSet r s).intSetAt r' = h.intSetAt r' := by
  simp [Heap.intSetAt, Heap.writeIntSet, assocGet_set_ne _ _ _ _ hne]

@[simp]
theorem boolMapAt_writeBoolMap_self (h : Heap) (r : Nat) (m : List (Int × Bool)) :
    (h.writeBoolMap r m).boolMapAt r = m := by
  simp [Heap.boolMapAt, Heap.writeBoolMap, assocGet_set_self]

theorem boolMapAt_writeBoolMap_ne (h : Heap) (r r' : Nat) (m : List (Int × Bool))
    (hne : r' ≠ r) : (h.writeBoolMap r m).boolMapAt r' = h.boolMapAt r' := by
  simp [Heap.boolMapAt, Heap.writeBoolMap, assocGet_set_ne _ _ _ _ hne]

@[simp]
theorem itemMapAt_writeIntSet (h : Heap) (r r' : Nat) (s : List Int) :
    (h.writeIntSet r s).itemMapAt r' = h.itemMapAt r' := rfl

@[simp]
theorem itemMapAt_writeBoolMap (h : Heap) (r r' : Nat) (m : List (Int × Bool)) :
    (h.writeBoolMap r m).itemMapAt r' = h.itemMapAt r' := rfl

@[simp]
theorem intSetAt_writeItemMap (h : Heap) (r r' : Nat) (m : List (Int × Item)) :
    (h.writeItemMap r m).intSetAt r' = h.intSetAt r' := rfl

@[simp]
theorem intSetAt_writeBoolMap (h : Heap) (r r' : Nat) (m : List (Int × Bool)) :
    (h.writeBoolMap r m).intSetAt r' = h.intSetAt r' := rfl

@[simp]
theorem boolMapAt_writeItemMap (h : Heap) (r r' : Nat) (m : List (Int × Item)) :
    (h.writeItemMap r m).boolMapAt r' = h.boolMapAt r' := rfl

@[simp]
theorem boolMapAt_writeIntSet (h : Heap) (r r' : Nat) (s : List Int) :
    (h.writeIntSet r s).boolMapAt r' = h.boolMapAt r' := rfl

@[simp]
theorem next_writeItemMap (h : Heap) (r : Nat) (m : List (Int × Item)) :
    (h.writeItemMap r m).next = h.next := rfl

@[simp]
theorem next_writeIntSet (h : Heap) (r : Nat) (s : List Int) :
    (h.writeIntSet r s).next = h.next := rfl

@[simp]
theorem next_writeBoolMap (h : Heap) (r : Nat) (m : List (Int × Bool)) :
    (h.writeBoolMap r m).next = h.next := rfl

@[simp]
theorem intSets_writeItemMap (h : Heap) (r : Nat) (m : List (Int × Item)) :
    (h.writeItemMap r m).intSets = h.intSets := rfl

@[simp]
theorem boolMaps_writeItemMap (h : Heap) (r : Nat) (m : List (Int × Item)) :
    (h.writeItemMap r m).boolMaps = h.boolMaps := rfl

@[simp]
theorem itemMaps_writeIntSet (h : Heap) (r : Nat) (s : List Int) :
    (h.writeIntSet r s).itemMaps = h.itemMaps := rfl

@[simp]
theorem boolMaps_writeIntSet (h : Heap) (r : Nat) (s : List Int) :
    (h.writeIntSet r s).boolMaps = h.boolMaps := rfl

@[simp]
theorem itemMaps_writeBoolMap (h : Heap) (r : Nat) (m : List (Int × Bool)) :
    (h.writeBoolMap r m).itemMaps = h.itemMaps := rfl

@[simp]
theorem intSets_writeBoolMap (h : Heap) (r : Nat) (m : List (Int × Bool)) :
    (h.writeBoolMap r m).intSets = h.intSets := rfl

/-! Clone, notify and merge facts. -/

theorem clone_snd (w : World) (s : Paginatable) :
    (clone w s).2 = { total := s.total, loadingRef := w.heap.next + 4,
                      itemsRef := s.itemsRef, itemsCache := s.itemsCache,
                      seenRef := w.heap.next + 3, dispatch := s.dispatch } := by
  simp [clone, mkPaginatable, Heap.allocItemMap, Heap.allocBoolMap,
        Heap.allocIntSet]

theorem clone_heap_next (w : World) (s : Paginatable) :
    ((clone w s).1).heap.next = w.heap.next + 5 := by
  simp [clone, mkPaginatable, Heap.allocItemMap, Heap.allocBoolMap,
        Heap.allocIntSet]

theorem clone_dispatched (w : World) (s : Paginatable) :
    ((clone w s).1).dispatched = w.dispatched := by
  simp [clone, mkPaginatable, Heap.allocItemMap, Heap.allocBoolMap,
        Heap.allocIntSet]

theorem clone_itemMapAt (w : World) (s : Paginatable) (r : Nat)
    (hr : r < w.heap.next) :
    ((clone w s).1).heap.itemMapAt r = w.heap.itemMapAt r := by
  simp only [clone, mkPaginatable, Heap.allocItemMap, Heap.allocBoolMap,
             Heap.allocIntSet]
  simp only [Heap.writeIntSet, Heap.writeBoolMap]
  simp [Heap.itemMapAt, Heap.writeItemMap]
  rw [assocGet_set_ne]
  omega

theorem clone_intSetAt (w : World) (s : Paginatable) (r : Nat)
    (hr : r < w.heap.next) :
    ((clone w s).1).heap.intSetAt r = w.heap.intSetAt r := by
  simp only [clone, mkPaginatable, Heap.allocItemMap, Heap.allocBoolMap,
             Heap.allocIntSet]
  simp only [Heap.writeItemMap, Heap.writeBoolMap]
  simp [Heap.intSetAt, Heap.writeIntSet]
  rw [assocGet_set_ne, assocGet_set_ne]
  · omega
  · omega

theorem clone_boolMapAt (w : World) (s : Paginatable) (r : Nat)
    (hr : r < w.heap.next) :
    ((clone w s).1).heap.boolMapAt r = w.heap.boolMapAt r := by
  simp only [clone, mkPaginatable, Heap.allocItemMap, Heap.allocBoolMap,
             Heap.allocIntSet]
  simp only [Heap.writeItemMap, Heap.writeIntSet]
  simp [Heap.boolMapAt, Heap.writeBoolMap]
  rw [assocGet_set_ne, assocGet_set_ne]
  · omega
  · omega

theorem clone_seen_copy (w : World) (s : Paginatable)
    (hs : s.seenRef < w.heap.next) :
    ((clone w s).1).heap.intSetAt ((clone w s).2.seenRef) =
      w.heap.intSetAt s.seenRef := by
  have h1 : s.seenRef ≠ w.heap.next + 1 + 1 := by omega
  simp only [clone, mkPaginatable, Heap.allocItemMap, Heap.allocBoolMap,
             Heap.allocIntSet]
  simp only [Heap.writeItemMap, Heap.writeBoolMap]
  simp [Heap.intSetAt, Heap.writeIntSet]
  rw [assocGet_set_self, assocGet_set_ne _ _ _ _ h1]
  rfl

theorem clone_loading_copy (w : World) (s : Paginatable)
    (hl : s.loadingRef < w.heap.next) :
    ((clone w s).1).heap.boolMapAt ((clone w s).2.loadingRef) =
      w.heap.boolMapAt s.loadingRef := by
  have h1 : s.loadingRef ≠ w.heap.next + 1 := by omega
  simp only [clone, mkPaginatable, Heap.allocItemMap, Heap.allocBoolMap,
             Heap.allocIntSet]
  simp only [Heap.writeItemMap, Heap.writeIntSet]
  simp [Heap.boolMapAt, Heap.writeBoolMap]
  rw [assocGet_set_self, assocGet_set_ne _ _ _ _ h1]
  rfl

theorem notify_heap (w : World) (s : Paginatable) :
    ((notify w s).1).heap = ((clone w s).1).heap := by
  cases hd : s.dispatch <;> simp [notify, hd]

theorem notify_dispatched_none (w : World) (s : Paginatable)
    (hd : s.dispatch = none) :
    ((notify w s).1).dispatched = w.dispatched ∧
      (notify w s).2 = OpResult.threwNoDispatch := by
  simp [notify, hd, clone_dispatched]

theorem notify_dispatched_some (w : World) (s : Paginatable) (d : Nat)
    (hd : s.dispatch = some d) :
    ((notify w s).1).dispatched = w.dispatched ++ [(clone w s).2] ∧
      (notify w s).2 = OpResult.ok := by
  simp [notify, hd, clone_dispatched]

theorem mergeAll_cons (w : World) (r : Nat) (it : Item) (t : List Item) :
    mergeAll w r (it :: t) = mergeAll (mergeStep w r it) r t := by
  simp [mergeAll]

theorem mergeAll_intSets (d : List Item) (w : World) (r : Nat) :
    (mergeAll w r d).heap.intSets = w.heap.intSets := by
  induction d generalizing w with
  | nil => rfl
  | cons it t ih => rw [mergeAll_cons, ih]; rfl

theorem mergeAll_boolMaps (d : List Item) (w : World) (r : Nat) :
    (mergeAll w r d).heap.boolMaps = w.heap.boolMaps := by
  induction d generalizing w with
  | nil => rfl
  | cons it t ih => rw [mergeAll_cons, ih]; rfl

theorem mergeAll_next (d : List Item) (w : World) (r : Nat) :
    (mergeAll w r d).heap.next = w.heap.next := by
  induction d generalizing w with
  | nil => rfl
  | cons it t ih => rw [mergeAll_cons, ih]; rfl

theorem mergeAll_dispatched (d : List Item) (w : World) (r : Nat) :
    (mergeAll w r d).dispatched = w.dispatched := by
  induction d generalizing w with
  | nil => rfl
  | cons it t ih => rw [mergeAll_cons, ih]; rfl

theorem mergeAll_fetchCalls (d : List Item) (w : World) (r : Nat) :
    (mergeAll w r d).fetchCalls = w.fetchCalls := by
  induction d generalizing w with
  | nil => rfl
  | cons it t ih => rw [mergeAll_cons, ih]; rfl

theorem mergeAll_itemMapAt_self (d : List Item) (w : World) (r : Nat) :
    (mergeAll w r d).heap.itemMapAt r =
      d.foldl (fun m it => assocSet m it.id it) (w.heap.itemMapAt r) := by
  induction d generalizing w with
  | nil => rfl
  | cons it t ih =>
    rw [mergeAll_cons, ih]
    simp [mergeStep]

theorem mergeAll_warnings (d : List Item) (w : World) (r : Nat) :
    (mergeAll w r d).warnings = w.warnings := by
  induction d generalizing w with
  | nil => rfl
  | cons it t ih => rw [mergeAll_cons, ih]; rfl

theorem mergeAll_itemMapAt_ne (d : List Item) (w : World) (r r' : Nat)
    (hne : r' ≠ r) :
    (mergeAll w r d).heap.itemMapAt r' = w.heap.itemMapAt r' := by
  induction d generalizing w with
  | nil => rfl
  | cons it t ih =>
    rw [mergeAll_cons, ih]
    simp [mergeStep, itemMapAt_writeItemMap_ne _ _ _ _ hne]

/-! Concrete demonstration runs used by counterexamples and witnesses. -/

/-- A freshly constructed store over the empty heap. -/
def demoMk : Heap × Paginatable := mkPaginatable emptyHeap

/-- The world right after construction. -/
def demoWorld : World := { emptyWorld with heap := demoMk.1 }

/-- The fresh store with a dispatch callback registered. -/
def demoStore : Paginatable := setDispatch demoMk.2 0

/-- A fetch capability: page 1 holds one item, every other page rejects. -/
def demoFetch : Int → Except Unit (Option (List Item) × Int) :=
  fun p => if p = 1 then Except.ok (some [{ id := 1, payload := 10 }], 1)
           else Except.error ()

/-- A fetch capability that always rejects. -/
def demoFetchFail : Int → Except Unit (Option (List Item) × Int) :=
  fun _ => Except.error ()

/-- The demo store after a successful paginate of page 1. -/
def demoAfterPage : World × Paginatable × OpResult :=
  paginate demoFetch demoWorld demoStore 1

/-- C5: two consecutive reads of the `items` getter with no intervening
mutation return the identical result, reference included: the memoized
array is recomputed only when the cache is absent, and a second read
returns exactly the cached reference, world and store untouched. -/
theorem items_read_stable (w : World) (s : Paginatable) :
    itemsRead (itemsRead w s).1 (itemsRead w s).2.1 = itemsRead w s := by
  cases hc : s.itemsCache <;> simp [itemsRead, hc]

/-- C3 (amended): `reset` never delivers a notification to the observer:
the dispatched log is unchanged, while the item map, `total`, the snapshot
cache, the seen set and the loading map are all cleared. -/
theorem reset_clears_without_notifying (w : World) (s : Paginatable) :
    ((reset w s).1).dispatched = w.dispatched
    ∧ ((reset w s).1).heap.itemMapAt s.itemsRef = []
    ∧ ((reset w s).2).total = 0
    ∧ ((reset w s).2).itemsCache = none
    ∧ ((reset w s).1).heap.intSetAt s.seenRef = []
    ∧ ((reset w s).1).heap.boolMapAt s.loadingRef = [] := by
  refine ⟨rfl, ?_, rfl, rfl, ?_, ?_⟩ <;> simp [reset]

/-- C3 counterexample: a `reset` call on a store with a registered observer
and non-empty state delivers no notification: exactly the one snapshot
dispatched by the earlier paginate is ever delivered, and `reset` adds
none. -/
theorem reset_notifies_counterexample :
    demoAfterPage.2.1.dispatch = some 0
    ∧ demoAfterPage.1.dispatched.length = 1
    ∧ ((reset demoAfterPage.1 demoAfterPage.2.1).1).dispatched.length = 1 := by
  decide

/-- C6: `add` of an already present identity, `remove` of an absent
identity and `update` of an absent identity are no-ops: no dispatch, the
item map, the snapshot cache, `total`, the seen set and the loading map are
all left unchanged (the two diagnostic branches only bump the warning
counter). -/
theorem noop_mutations (w : World) (s : Paginatable) (x y : Item) (i : Int) :
    (hasItem w s x.id = true → add w s x = (w, s, OpResult.ok))
    ∧ (hasItem w s i = false →
        ((remove w s i).1).dispatched = w.dispatched
        ∧ ((remove w s i).1).heap.itemMapAt s.itemsRef = w.heap.itemMapAt s.itemsRef
        ∧ ((remove w s i).1).heap.intSets = w.heap.intSets
        ∧ ((remove w s i).1).heap.boolMaps = w.heap.boolMaps
        ∧ (remove w s i).2.1 = s
        ∧ (remove w s i).2.2 = OpResult.ok)
    ∧ (hasItem w s y.id = false →
        update w s y = ({ w with warnings := w.warnings + 1 }, s, OpResult.ok)) := by
  refine ⟨?_, ?_, ?_⟩
  · intro hx
    simp [add, hx]
  · intro hi
    have hi2 : assocHas ((assocGet w.heap.itemMaps s.itemsRef).getD []) i = false := by
      simpa [hasItem, Heap.itemMapAt] using hi
    have hdel : assocDel ((assocGet w.heap.itemMaps s.itemsRef).getD []) i
        = (assocGet w.heap.itemMaps s.itemsRef).getD [] :=
      assocDel_not_has _ _ hi2
    simp [remove, Heap.itemMapAt, hi2, hdel, Heap.writeItemMap, assocGet_set_self]
  · intro hy
    simp [update, hy]

/-- C6 witness: on the demo store after paginating page 1, re-adding item 1,
removing the absent id 999 and updating the absent id 999 are all no-ops. -/
theorem noop_mutations_witness :
    (hasItem demoAfterPage.1 demoAfterPage.2.1 (1 : Int) = true
      ∧ add demoAfterPage.1 demoAfterPage.2.1 { id := 1, payload := 99 }
          = (demoAfterPage.1, demoAfterPage.2.1, OpResult.ok))
    ∧ (hasItem demoAfterPage.1 demoAfterPage.2.1 (999 : Int) = false
      ∧ (remove demoAfterPage.1 demoAfterPage.2.1 999).2.1 = demoAfterPage.2.1)
    ∧ (update demoAfterPage.1 demoAfterPage.2.1 { id := 999, payload := 0 }
        = ({ demoAfterPage.1 with warnings := demoAfterPage.1.warnings + 1 },
           demoAfterPage.2.1, OpResult.ok)) :=
  ⟨⟨by decide,
    (noop_mutations demoAfterPage.1 demoAfterPage.2.1
      { id := 1, payload := 99 } { id := 999, payload := 0 } 999).1 (by decide)⟩,
   ⟨by decide,
    ((noop_mutations demoAfterPage.1 demoAfterPage.2.1
      { id := 1, payload := 99 } { id := 999, payload := 0 } 999).2.1 (by decide)).2.2.2.2.1⟩,
   (noop_mutations demoAfterPage.1 demoAfterPage.2.1
      { id := 1, payload := 99 } { id := 999, payload := 0 } 999).2.2 (by decide)⟩

theorem notify_snd (w : World) (s : Paginatable) :
    (notify w s).2 = (match s.dispatch with
      | none => OpResult.threwNoDispatch
      | some _ => OpResult.ok) := by
  cases hd : s.dispatch <;> simp [notify, hd]

theorem clone_fetchCalls (w : World) (s : Paginatable) :
    ((clone w s).1).fetchCalls = w.fetchCalls := by
  simp [clone, mkPaginatable, Heap.allocItemMap, Heap.allocBoolMap,
        Heap.allocIntSet]

theorem notify_fetchCalls (w : World) (s : Paginatable) :
    ((notify w s).1).fetchCalls = w.fetchCalls := by
  cases hd : s.dispatch <;> simp [notify, hd, clone_fetchCalls]

theorem jsSetAdd_contains (l : List Int) (x : Int) :
    (jsSetAdd l x).contains x = true := by
  by_cases h : x ∈ l <;> simp [jsSetAdd, h]

theorem jsSetAdd_mem (l : List Int) (x : Int) : x ∈ jsSetAdd l x := by
  by_cases h : x ∈ l <;> simp [jsSetAdd, h]

/-- C9: a freshly constructed store has no dispatch callback; while the
callback is absent every notifying mutation (add of a new identity, remove
or update of a present identity, successful paginate of an unseen page)
ends in the null-callback failure; once `setDispatch` has been called
first, that failure outcome is unreachable for every operation. -/
theorem missing_dispatch_unsafe (w : World) (s : Paginatable) (x y : Item)
    (i page : Int) (d : Nat) (pr : Option (List Item) × Int)
    (fetch : Int → Except Unit (Option (List Item) × Int)) :
    ((mkPaginatable w.heap).2.dispatch = none)
    ∧ (s.dispatch = none →
        (hasItem w s x.id = false → (add w s x).2.2 = OpResult.threwNoDispatch)
        ∧ (hasItem w s i = true → (remove w s i).2.2 = OpResult.threwNoDispatch)
        ∧ (hasItem w s y.id = true → (update w s y).2.2 = OpResult.threwNoDispatch)
        ∧ ((w.heap.intSetAt s.seenRef).contains page = false →
            fetch page = Except.ok pr →
            (paginate fetch w s page).2.2 = OpResult.threwNoDispatch))
    ∧ ((add w (setDispatch s d) x).2.2 ≠ OpResult.threwNoDispatch
        ∧ (remove w (setDispatch s d) i).2.2 ≠ OpResult.threwNoDispatch
        ∧ (update w (setDispatch s d) y).2.2 ≠ OpResult.threwNoDispatch
        ∧ (paginate fetch w (setDispatch s d) page).2.2 ≠ OpResult.threwNoDispatch) := by
  refine ⟨rfl, ?_, ?_, ?_, ?_, ?_⟩
  · intro hd
    refine ⟨?_, ?_, ?_, ?_⟩
    · intro hx
      simp [add, hx, notify_snd, hd]
    · intro hi
      simp [remove, Heap.itemMapAt, hasItem] at hi
      simp [remove, Heap.itemMapAt, hi, notify_snd, hd]
    · intro hy
      simp [update, hy, notify_snd, hd]
    · intro hp hf
      obtain ⟨data, tot⟩ := pr
      have hp2 : page ∉ w.heap.intSetAt s.seenRef := by simpa using hp
      simp [paginate, hp2, hf, notify_snd, hd]
  · by_cases hx2 : assocHas ((assocGet w.heap.itemMaps s.itemsRef).getD []) x.id <;>
      simp [add, hasItem, Heap.itemMapAt, setDispatch, hx2, notify_snd]
  · by_cases hi2 : assocHas ((assocGet w.heap.itemMaps s.itemsRef).getD []) i <;>
      simp [remove, Heap.itemMapAt, setDispatch, hi2, notify_snd]
  · by_cases hy2 : assocHas ((assocGet w.heap.itemMaps s.itemsRef).getD []) y.id <;>
      simp [update, hasItem, Heap.itemMapAt, setDispatch, hy2, notify_snd]
  · by_cases hp2 : page ∈ w.heap.intSetAt s.seenRef
    · simp [paginate, setDispatch, hp2]
    · cases hf2 : fetch page with
      | error e => simp [paginate, setDispatch, hp2, hf2]
      | ok pr2 =>
        obtain ⟨data2, tot2⟩ := pr2
        simp [paginate, setDispatch, hp2, hf2, notify_snd]

/-- C9 witness: adding to a fresh store (no dispatch registered) throws;
after that throw item 1 is in the map, so remove and update also throw;
with a dispatch registered first, none of the operations throw the
null-callback failure. -/
theorem missing_dispatch_unsafe_witness :
    ((mkPaginatable demoWorld.heap).2.dispatch = none)
    ∧ ((add (add demoWorld demoMk.2 { id := 1, payload := 0 }).1
          (add demoWorld demoMk.2 { id := 1, payload := 0 }).2.1
          { id := 2, payload := 0 }).2.2 = OpResult.threwNoDispatch)
    ∧ ((remove (add demoWorld demoMk.2 { id := 1, payload := 0 }).1
          (add demoWorld demoMk.2 { id := 1, payload := 0 }).2.1 1).2.2
        = OpResult.threwNoDispatch)
    ∧ ((update (add demoWorld demoMk.2 { id := 1, payload := 0 }).1
          (add demoWorld demoMk.2 { id := 1, payload := 0 }).2.1
          { id := 1, payload := 5 }).2.2 = OpResult.threwNoDispatch)
    ∧ ((paginate demoFetch (add demoWorld demoMk.2 { id := 1, payload := 0 }).1
          (add demoWorld demoMk.2 { id := 1, payload := 0 }).2.1 1).2.2
        = OpResult.threwNoDispatch)
    ∧ ((paginate demoFetch (add demoWorld demoMk.2 { id := 1, payload := 0 }).1
          (setDispatch (add demoWorld demoMk.2 { id := 1, payload := 0 }).2.1 0)
          1).2.2 ≠ OpResult.threwNoDispatch) := by
  have h := missing_dispatch_unsafe
    (add demoWorld demoMk.2 { id := 1, payload := 0 }).1
    (add demoWorld demoMk.2 { id := 1, payload := 0 }).2.1
    { id := 2, payload := 0 } { id := 1, payload := 5 } 1 1 0
    (some [{ id := 1, payload := 10 }], 1) demoFetch
  have h2 := (h.2.1 (by decide))
  exact ⟨h.1, h2.1 (by decide), h2.2.1 (by decide), h2.2.2.1 (by decide),
         h2.2.2.2 (by decide) (by rfl), h.2.2.2.2.2⟩

/-- C2 (amended): when the injected fetch rejects for an unseen page, the
failure propagates to the caller of paginate and the page remains in the
seen set, but `loading[page]` is left `true`: the source clears the flag
only after a successful await and has no finally-style cleanup, so the
flag is stuck rather than cleared to false. -/
theorem paginate_failure_keeps_loading
    (fetch : Int → Except Unit (Option (List Item) × Int))
    (w : World) (s : Paginatable) (page : Int)
    (hseen : (w.heap.intSetAt s.seenRef).contains page = false)
    (hfail : fetch page = Except.error ()) :
    (paginate fetch w s page).2.2 = OpResult.threwFetch
    ∧ (((paginate fetch w s page).1).heap.intSetAt s.seenRef).contains page = true
    ∧ assocGet (((paginate fetch w s page).1).heap.boolMapAt s.loadingRef) page
        = some true
    ∧ ((paginate fetch w s page).1).fetchCalls = w.fetchCalls ++ [page]
    ∧ (paginate fetch w s page).2.1 = s := by
  have hseen2 : page ∉ w.heap.intSetAt s.seenRef := by simpa using hseen
  refine ⟨?_, ?_, ?_, ?_, ?_⟩ <;>
    simp [paginate, hseen2, hfail, jsSetAdd_mem, assocGet_set_self]

/-- C2 counterexample: on the fresh demo store with an always-rejecting
fetch, paginate(1) propagates the failure while `loading[1]` is `true`,
not cleared to `false` as the claim states. -/
theorem paginate_failure_counterexample :
    (paginate demoFetchFail demoWorld demoStore 1).2.2 = OpResult.threwFetch
    ∧ assocGet (((paginate demoFetchFail demoWorld demoStore 1).1).heap.boolMapAt
        demoStore.loadingRef) 1 = some true
    ∧ assocGet (((paginate demoFetchFail demoWorld demoStore 1).1).heap.boolMapAt
        demoStore.loadingRef) 1 ≠ some false := by
  decide

/-- C2 witness: instantiating the amended failure theorem on the demo
store. -/
theorem paginate_failure_keeps_loading_witness :
    (paginate demoFetchFail demoWorld demoStore 1).2.2 = OpResult.threwFetch
    ∧ (((paginate demoFetchFail demoWorld demoStore 1).1).heap.intSetAt
        demoStore.seenRef).contains 1 = true
    ∧ assocGet (((paginate demoFetchFail demoWorld demoStore 1).1).heap.boolMapAt
        demoStore.loadingRef) 1 = some true :=
  have h := paginate_failure_keeps_loading demoFetchFail demoWorld demoStore 1
    (by decide) (by rfl)
  ⟨h.1, h.2.1, h.2.2.1⟩

theorem mergeAll_intSetAt (d : List Item) (w : World) (r r' : Nat) :
    (mergeAll w r d).heap.intSetAt r' = w.heap.intSetAt r' := by
  simp [Heap.intSetAt, mergeAll_intSets]

theorem mergeAll_boolMapAt (d : List Item) (w : World) (r r' : Nat) :
    (mergeAll w r d).heap.boolMapAt r' = w.heap.boolMapAt r' := by
  simp [Heap.boolMapAt, mergeAll_boolMaps]

theorem paginate_store_seenRef
    (fetch : Int → Except Unit (Option (List Item) × Int))
    (w : World) (s : Paginatable) (page : Int) :
    (paginate fetch w s page).2.1.seenRef = s.seenRef := by
  by_cases hp : page ∈ w.heap.intSetAt s.seenRef
  · simp [paginate, hp]
  · cases hf : fetch page with
    | error e => simp [paginate, hp, hf]
    | ok pr =>
      obtain ⟨data, tot⟩ := pr
      simp [paginate, hp, hf]

/-- C4: paginate of an unseen page invokes the injected fetch exactly once
(the fetch call log grows by exactly that page), and an immediately
following second paginate of the same page finds the page in the seen set
and returns the world and store verbatim with a normal outcome: a no-op
that fetches nothing and changes no state. -/
theorem paginate_twice_fetches_once
    (fetch : Int → Except Unit (Option (List Item) × Int))
    (w : World) (s : Paginatable) (page : Int)
    (hWF : WFRefs w s)
    (hseen : (w.heap.intSetAt s.seenRef).contains page = false) :
    ((paginate fetch w s page).1).fetchCalls = w.fetchCalls ++ [page]
    ∧ paginate fetch (paginate fetch w s page).1 (paginate fetch w s page).2.1 page
        = ((paginate fetch w s page).1, (paginate fetch w s page).2.1, OpResult.ok) := by
  obtain ⟨hWF1, hWF2, hWF3⟩ := hWF
  have hseen2 : page ∉ w.heap.intSetAt s.seenRef := by simpa using hseen
  have hAfter : ((paginate fetch w s page).1).heap.intSetAt s.seenRef
      = jsSetAdd (w.heap.intSetAt s.seenRef) page := by
    cases hf : fetch page with
    | error e => simp [paginate, hseen2, hf]
    | ok pr =>
      obtain ⟨data, tot⟩ := pr
      simp [paginate, hseen2, hf, notify_heap, clone_intSetAt, mergeAll_next,
            mergeAll_intSetAt, hWF2]
  have hc : page ∈ ((paginate fetch w s page).1).heap.intSetAt
      ((paginate fetch w s page).2.1).seenRef := by
    rw [paginate_store_seenRef, hAfter]
    exact jsSetAdd_mem _ _
  constructor
  · cases hf : fetch page with
    | error e => simp [paginate, hseen2, hf]
    | ok pr =>
      obtain ⟨data, tot⟩ := pr
      simp [paginate, hseen2, hf, notify_fetchCalls, mergeAll_fetchCalls]
  · generalize hW : paginate fetch w s page = P at hc ⊢
    obtain ⟨W1, S1, r1⟩ := P
    simp only at hc ⊢
    simp [paginate, hc]

/-- C4 witness: on the demo store, the first paginate of page 1 logs one
fetch call and the second paginate of page 1 is a verbatim no-op. -/
theorem paginate_twice_fetches_once_witness :
    ((paginate demoFetch demoWorld demoStore 1).1).fetchCalls
        = demoWorld.fetchCalls ++ [1]
    ∧ paginate demoFetch (paginate demoFetch demoWorld demoStore 1).1
        (paginate demoFetch demoWorld demoStore 1).2.1 1
        = ((paginate demoFetch demoWorld demoStore 1).1,
           (paginate demoFetch demoWorld demoStore 1).2.1, OpResult.ok) :=
  paginate_twice_fetches_once demoFetch demoWorld demoStore 1
    (by decide) (by decide)

/-- First read of `.items` on the fresh demo store: caches the empty
array. -/
def demoRead1 : World × Paginatable × (Nat × List Item) :=
  itemsRead demoWorld demoStore

/-- Successful paginate of page 1 performed after the cache was
populated. -/
def demoPagAfterRead : World × Paginatable × OpResult :=
  paginate demoFetch demoRead1.1 demoRead1.2.1 1

/-- Second read of `.items`, after the merge. -/
def demoRead2 : World × Paginatable × (Nat × List Item) :=
  itemsRead demoPagAfterRead.1 demoPagAfterRead.2.1

/-- C1 (code-bug evidence): `paginate` merges the fetched items into the
item map but never invalidates the memoized snapshot, contradicting the
doc comment of the `items` getter in the source ("If the items are
modified, the cache is reset to null"): after `.items` has been read and
cached, a successful paginate of page 1 merges item 1 into the map, yet
the next read of `.items` returns the very same stale array reference,
still empty, instead of a new reference reflecting the merge. -/
theorem paginate_stale_cache_bug :
    demoRead1.2.2.2 = []
    ∧ demoPagAfterRead.2.2 = OpResult.ok
    ∧ assocGet ((demoPagAfterRead.1).heap.itemMapAt demoStore.itemsRef) 1
        = some { id := 1, payload := 10 }
    ∧ demoRead2.2.2 = demoRead1.2.2
    ∧ demoRead2.2.2.2 = [] := by
  decide

theorem keysNodup_foldl_assocSet (d : List Item) (m : List (Int × Item))
    (h : keysNodup m) :
    keysNodup (d.foldl (fun m it => assocSet m it.id it) m) := by
  induction d generalizing m with
  | nil => simpa using h
  | cons it t ih => simpa using ih _ (keysNodup_assocSet _ _ _ h)

/-- C7: the item map keeps pairwise distinct identity keys under both
update and a paginate merge, and insertion overwrites: update of a present
identity leaves the updated item as the binding of its key, and the
paginate merge folds every fetched item in with the same
replace-in-place-or-append map insertion. -/
theorem item_map_unique_keys
    (fetch : Int → Except Unit (Option (List Item) × Int))
    (w : World) (s : Paginatable) (y : Item) (page : Int)
    (hWF : WFRefs w s)
    (hnd : keysNodup (w.heap.itemMapAt s.itemsRef)) :
    keysNodup (((update w s y).1).heap.itemMapAt s.itemsRef)
    ∧ (hasItem w s y.id = true →
        assocGet (((update w s y).1).heap.itemMapAt s.itemsRef) y.id = some y)
    ∧ keysNodup (((paginate fetch w s page).1).heap.itemMapAt s.itemsRef)
    ∧ (∀ data tot, fetch page = Except.ok (some data, tot) →
        (w.heap.intSetAt s.seenRef).contains page = false →
        ((paginate fetch w s page).1).heap.itemMapAt s.itemsRef
          = data.foldl (fun m it => assocSet m it.id it)
              (w.heap.itemMapAt s.itemsRef)) := by
  obtain ⟨hWF1, hWF2, hWF3⟩ := hWF
  have hupd : ((update w s y).1).heap.itemMapAt s.itemsRef
      = if hasItem w s y.id then
          assocSet (w.heap.itemMapAt s.itemsRef) y.id y
        else w.heap.itemMapAt s.itemsRef := by
    by_cases hy : hasItem w s y.id
    · simp [update, hy, notify_heap, clone_itemMapAt, hWF1]
    · simp [update, hy]
  have hpag : ∀ data tot, fetch page = Except.ok (data, tot) →
      (w.heap.intSetAt s.seenRef).contains page = false →
      ((paginate fetch w s page).1).heap.itemMapAt s.itemsRef
        = (data.getD []).foldl (fun m it => assocSet m it.id it)
            (w.heap.itemMapAt s.itemsRef) := by
    intro data tot hf hp
    have hp2 : page ∉ w.heap.intSetAt s.seenRef := by simpa using hp
    simp [paginate, hp2, hf, notify_heap, clone_itemMapAt, mergeAll_next,
          mergeAll_itemMapAt_self, hWF1]
  refine ⟨?_, ?_, ?_, ?_⟩
  · rw [hupd]
    by_cases hy : hasItem w s y.id
    · simpa [hy] using keysNodup_assocSet _ _ _ hnd
    · simpa [hy] using hnd
  · intro hy
    rw [hupd]
    simp [hy, assocGet_set_self]
  · by_cases hp : page ∈ w.heap.intSetAt s.seenRef
    · simpa [paginate, hp] using hnd
    · cases hf : fetch page with
      | error e =>
        have hp3 : page ∉ w.heap.intSetAt s.seenRef := hp
        simpa [paginate, hp3, hf] using hnd
      | ok pr =>
        obtain ⟨data, tot⟩ := pr
        rw [hpag data tot hf (by simpa using hp)]
        exact keysNodup_foldl_assocSet _ _ hnd
  · intro data tot hf hp
    simpa using hpag (some data) tot hf hp

/-- A second fetch capability used by witnesses: page 2 holds one item. -/
def demoFetchB : Int → Except Unit (Option (List Item) × Int) :=
  fun p => if p = 2 then Except.ok (some [{ id := 2, payload := 20 }], 2)
           else Except.error ()

/-- C7 witness: on the demo store holding item 1, updating item 1 and
merging page 2 both keep the keys distinct, the update overwrites the
binding of key 1, and the merge equals the overwrite fold. -/
theorem item_map_unique_keys_witness :
    keysNodup (((update demoAfterPage.1 demoAfterPage.2.1
        { id := 1, payload := 55 }).1).heap.itemMapAt demoAfterPage.2.1.itemsRef)
    ∧ assocGet (((update demoAfterPage.1 demoAfterPage.2.1
        { id := 1, payload := 55 }).1).heap.itemMapAt demoAfterPage.2.1.itemsRef) 1
        = some { id := 1, payload := 55 }
    ∧ keysNodup (((paginate demoFetchB demoAfterPage.1 demoAfterPage.2.1
        2).1).heap.itemMapAt demoAfterPage.2.1.itemsRef)
    ∧ ((paginate demoFetchB demoAfterPage.1 demoAfterPage.2.1 2).1).heap.itemMapAt
        demoAfterPage.2.1.itemsRef
        = [{ id := 2, payload := 20 }].foldl (fun m it => assocSet m it.id it)
            (demoAfterPage.1.heap.itemMapAt demoAfterPage.2.1.itemsRef) :=
  have h := item_map_unique_keys demoFetchB demoAfterPage.1 demoAfterPage.2.1
    { id := 1, payload := 55 } 2 (by decide) (by decide)
  ⟨h.1, h.2.1 (by decide), h.2.2.1,
   h.2.2.2 [{ id := 2, payload := 20 }] 2 (by rfl) (by decide)⟩

/-- C10 (amended): for an item y whose identity is already present,
update(y) keeps the position of that identity: the next read of `.items`
(recomputed, because update invalidates the snapshot cache) equals the
item sequence of the pre-update item map with the element at the position
of the key replaced by y and everything else unchanged (a `List.set` at
the index of the key, which is within bounds). -/
theorem update_preserves_position (w : World) (s : Paginatable) (y : Item)
    (hWF1 : s.itemsRef < w.heap.next)
    (hhas : hasItem w s y.id = true) :
    (itemsRead (update w s y).1 (update w s y).2.1).2.2.2
      = (mapValues (w.heap.itemMapAt s.itemsRef)).set
          ((w.heap.itemMapAt s.itemsRef).findIdx (fun p => decide (p.1 = y.id))) y
    ∧ (w.heap.itemMapAt s.itemsRef).findIdx (fun p => decide (p.1 = y.id))
        < (mapValues (w.heap.itemMapAt s.itemsRef)).length := by
  have hhas2 : assocHas (w.heap.itemMapAt s.itemsRef) y.id = true := by
    simpa [hasItem] using hhas
  have hupd : ((update w s y).1).heap.itemMapAt s.itemsRef
      = assocSet (w.heap.itemMapAt s.itemsRef) y.id y := by
    simp [update, hhas, notify_heap, clone_itemMapAt, hWF1]
  have hcache : ((update w s y).2.1).itemsCache = none := by
    simp [update, hhas]
  have hsameRef : ((update w s y).2.1).itemsRef = s.itemsRef := by
    simp [update, hhas]
  constructor
  · rw [show (itemsRead (update w s y).1 (update w s y).2.1).2.2.2
        = mapValues (((update w s y).1).heap.itemMapAt ((update w s y).2.1).itemsRef) by
      simp [itemsRead, hcache]]
    rw [hsameRef, hupd]
    exact mapValues_assocSet _ _ _ hhas2
  · have := findIdx_key_lt (w.heap.itemMapAt s.itemsRef) y.id hhas2
    simpa [mapValues] using this

/-- Update of item 1 performed on the store whose snapshot cache is stale
(the paginate bug left it holding the pre-merge empty array). -/
def demoUpd : World × Paginatable × OpResult :=
  update demoRead2.1 demoRead2.2.1 { id := 1, payload := 77 }

/-- The read of `.items` after that update. -/
def demoRead3 : World × Paginatable × (Nat × List Item) :=
  itemsRead demoUpd.1 demoUpd.2.1

/-- C10 counterexample: on the store whose memoized `.items` is stale
(empty, missing the merged item 1), updating the present item 1 gives a
next `.items` read of length 1 while the previous read had length 0, so
the next read is not the previous sequence with one position replaced. -/
theorem update_position_counterexample :
    hasItem demoRead2.1 demoRead2.2.1 1 = true
    ∧ demoRead2.2.2.2 = []
    ∧ demoRead3.2.2.2 = [{ id := 1, payload := 77 }]
    ∧ demoRead3.2.2.2.length ≠ demoRead2.2.2.2.length := by
  decide

/-- C10 witness: updating item 1 on the demo store after one page merge
replaces position 0 of the one-element sequence. -/
theorem update_preserves_position_witness :
    (itemsRead (update demoAfterPage.1 demoAfterPage.2.1
        { id := 1, payload := 77 }).1
      (update demoAfterPage.1 demoAfterPage.2.1
        { id := 1, payload := 77 }).2.1).2.2.2
      = (mapValues (demoAfterPage.1.heap.itemMapAt demoAfterPage.2.1.itemsRef)).set
          ((demoAfterPage.1.heap.itemMapAt demoAfterPage.2.1.itemsRef).findIdx
            (fun p => decide (p.1 = 1))) { id := 1, payload := 77 } :=
  (update_preserves_position demoAfterPage.1 demoAfterPage.2.1
    { id := 1, payload := 77 } (by decide) (by decide)).1

theorem paginate_intSetAt_frame
    (fetch : Int → Except Unit (Option (List Item) × Int))
    (w : World) (s : Paginatable) (page : Int) (r : Nat)
    (hr : r < w.heap.next) (hne : r ≠ s.seenRef) :
    ((paginate fetch w s page).1).heap.intSetAt r = w.heap.intSetAt r := by
  by_cases hp : page ∈ w.heap.intSetAt s.seenRef
  · simp [paginate, hp]
  · cases hf : fetch page with
    | error e => simp [paginate, hp, hf, intSetAt_writeIntSet_ne _ _ _ _ hne]
    | ok pr =>
      obtain ⟨data, tot⟩ := pr
      simp [paginate, hp, hf, notify_heap, clone_intSetAt, mergeAll_next,
            mergeAll_intSetAt, hr, intSetAt_writeIntSet_ne _ _ _ _ hne]

theorem paginate_boolMapAt_frame
    (fetch : Int → Except Unit (Option (List Item) × Int))
    (w : World) (s : Paginatable) (page : Int) (r : Nat)
    (hr : r < w.heap.next) (hne : r ≠ s.loadingRef) :
    ((paginate fetch w s page).1).heap.boolMapAt r = w.heap.boolMapAt r := by
  by_cases hp : page ∈ w.heap.intSetAt s.seenRef
  · simp [paginate, hp]
  · cases hf : fetch page with
    | error e => simp [paginate, hp, hf, boolMapAt_writeBoolMap_ne _ _ _ _ hne]
    | ok pr =>
      obtain ⟨data, tot⟩ := pr
      simp [paginate, hp, hf, notify_heap, clone_boolMapAt, mergeAll_next,
            mergeAll_boolMapAt, hr, boolMapAt_writeBoolMap_ne _ _ _ _ hne]

theorem reset_intSetAt_frame (w : World) (s : Paginatable) (r : Nat)
    (hne : r ≠ s.seenRef) :
    ((reset w s).1).heap.intSetAt r = w.heap.intSetAt r := by
  simp [reset, intSetAt_writeIntSet_ne _ _ _ _ hne]

theorem reset_boolMapAt_frame (w : World) (s : Paginatable) (r : Nat)
    (hne : r ≠ s.loadingRef) :
    ((reset w s).1).heap.boolMapAt r = w.heap.boolMapAt r := by
  simp [reset, boolMapAt_writeBoolMap_ne _ _ _ _ hne]

/-- C8: the snapshot built by `clone` (the object delivered to the dispatch
callback on every notifying mutation) shares by reference the item map,
the memoized snapshot and the dispatch callback of the mutated store, but
holds fresh, independent copies of the seen set and of the loading map:
the copies have the same contents behind different heap references, and a
later paginate or reset on the original store never changes the
page-tracking objects of an already delivered snapshot. -/
theorem clone_shares_and_copies (w : World) (s : Paginatable)
    (hWF : WFRefs w s) :
    ((clone w s).2.itemsRef = s.itemsRef
      ∧ (clone w s).2.itemsCache = s.itemsCache
      ∧ (clone w s).2.dispatch = s.dispatch
      ∧ (clone w s).2.total = s.total)
    ∧ ((clone w s).2.seenRef ≠ s.seenRef
      ∧ (clone w s).2.loadingRef ≠ s.loadingRef)
    ∧ (((clone w s).1).heap.intSetAt ((clone w s).2.seenRef)
        = w.heap.intSetAt s.seenRef
      ∧ ((clone w s).1).heap.boolMapAt ((clone w s).2.loadingRef)
        = w.heap.boolMapAt s.loadingRef)
    ∧ (∀ fetch page,
        ((paginate fetch (clone w s).1 s page).1).heap.intSetAt
            ((clone w s).2.seenRef)
          = ((clone w s).1).heap.intSetAt ((clone w s).2.seenRef)
        ∧ ((paginate fetch (clone w s).1 s page).1).heap.boolMapAt
            ((clone w s).2.loadingRef)
          = ((clone w s).1).heap.boolMapAt ((clone w s).2.loadingRef))
    ∧ (((reset (clone w s).1 s).1).heap.intSetAt ((clone w s).2.seenRef)
        = ((clone w s).1).heap.intSetAt ((clone w s).2.seenRef)
      ∧ ((reset (clone w s).1 s).1).heap.boolMapAt ((clone w s).2.loadingRef)
        = ((clone w s).1).heap.boolMapAt ((clone w s).2.loadingRef)) := by
  obtain ⟨hWF1, hWF2, hWF3⟩ := hWF
  have hs3 : (clone w s).2.seenRef = w.heap.next + 3 := by rw [clone_snd]
  have hl4 : (clone w s).2.loadingRef = w.heap.next + 4 := by rw [clone_snd]
  have hnext : ((clone w s).1).heap.next = w.heap.next + 5 := clone_heap_next w s
  refine ⟨⟨?_, ?_, ?_, ?_⟩, ⟨?_, ?_⟩,
          ⟨clone_seen_copy w s hWF2, clone_loading_copy w s hWF3⟩, ?_, ?_, ?_⟩
  · rw [clone_snd]
  · rw [clone_snd]
  · rw [clone_snd]
  · rw [clone_snd]
  · rw [hs3]; omega
  · rw [hl4]; omega
  · intro fetch page
    constructor
    · exact paginate_intSetAt_frame fetch ((clone w s).1) s page _
        (by rw [hs3, hnext]; omega) (by rw [hs3]; omega)
    · exact paginate_boolMapAt_frame fetch ((clone w s).1) s page _
        (by rw [hl4, hnext]; omega) (by rw [hl4]; omega)
  · exact reset_intSetAt_frame ((clone w s).1) s _ (by rw [hs3]; omega)
  · exact reset_boolMapAt_frame ((clone w s).1) s _ (by rw [hl4]; omega)

/-- C8 witness: on the fresh demo store, the clone shares the item map
reference, has a distinct seen-set reference with equal contents, and a
paginate or reset on the original afterwards leaves the clone copies
untouched. -/
theorem clone_shares_and_copies_witness :
    (clone demoWorld demoStore).2.itemsRef = demoStore.itemsRef
    ∧ (clone demoWorld demoStore).2.seenRef ≠ demoStore.seenRef
    ∧ ((clone demoWorld demoStore).1).heap.intSetAt
        ((clone demoWorld demoStore).2.seenRef)
        = demoWorld.heap.intSetAt demoStore.seenRef
    ∧ ((paginate demoFetch (clone demoWorld demoStore).1 demoStore 1).1).heap.intSetAt
        ((clone demoWorld demoStore).2.seenRef)
        = ((clone demoWorld demoStore).1).heap.intSetAt
            ((clone demoWorld demoStore).2.seenRef)
    ∧ ((reset (clone demoWorld demoStore).1 demoStore).1).heap.boolMapAt
        ((clone demoWorld demoStore).2.loadingRef)
        = ((clone demoWorld demoStore).1).heap.boolMapAt
            ((clone demoWorld demoStore).2.loadingRef) :=
  have h := clone_shares_and_copies demoWorld demoStore (by decide)
  ⟨h.1.1, h.2.1.1, h.2.2.1.1, (h.2.2.2.1 demoFetch 1).1, h.2.2.2.2.2⟩
